import Mathlib

/-!
Shallow embedding of the `prerender` HTTP middleware (Go, package
`prerender`, files `handler.go` and `variables.go`).

The middleware wraps an application handler: for each inbound request it
decides whether to intercept (`shouldShowPrerenderedPage`), and if so it
builds an outbound URL towards a rendering service (`buildApiUrl`) and
relays that service's response back to the client (`getPrerenderedPage`).

Modelling conventions:
* Go strings are Lean `String`s; `strings.Contains`, `strings.ToLower`,
  `strings.HasPrefix`/`HasSuffix` are modelled by `goContains`,
  `goToLower`, `goStartsWith`/`goEndsWith` (defined on character lists
  so that concrete inputs evaluate).
* A Go `http.Header` (`map[string][]string`) is an association list
  `List (String × List String)`; Go map keys are unique, which theorems
  assume via `Nodup` hypotheses where it matters.  `Header.Get`,
  `Header.Set`, `Header.Add` are `hdrGet`, `hdrSet`, `hdrAdd`.
* `http.ResponseWriter` is the state machine `RW`.  Per the documented
  `net/http` contract, changing the header map after `WriteHeader` (or the
  first `Write`) has no effect on what is sent to the client: `RW` records
  a snapshot of the header map at the moment the header is written, and
  the client observes that snapshot (`sentHeaders`).
* `url.QueryEscape` is `queryEscape`, byte-for-byte the Go algorithm for
  the query-component encode mode (unreserved bytes kept, space to `+`,
  everything else `%XX` with uppercase hex), applied to the UTF-8 bytes.
* `url.ParseRequestURI` / `URL.String` are modelled for origin-form
  request URIs (`/path?query`), the form a server receives: parsing splits
  at the first `?`; serialization is `scheme://host` ++ path ++ `?query`.
  (Go additionally re-escapes the path; for the paths considered here that
  is the identity and is not modelled.)
* `client.Do` outcomes are passed to the relay explicitly: the response
  (status, header, body), an optional transport error message `doErr`
  (which, when the redirect-suppression `CheckRedirect` hook fired, ends
  with the sentinel `"Redirect"`), and an optional body-read error
  `readErr`.  Messages handed to `h.logf` are collected in a list (they
  reach the configured logger when one is present).
-/

set_option autoImplicit false

deriving instance DecidableEq for Except

namespace Prerender

/-- `p` is a prefix of `s` (on character lists, so that the kernel can
evaluate it on literals). -/
def isPre (p s : List Char) : Bool :=
  match p, s with
  | [], _ => true
  | _ :: _, [] => false
  | a :: p, b :: s => a == b && isPre p s

/-- `p` occurs as a contiguous sublist of `s`. -/
def isSubList (p s : List Char) : Bool :=
  match s with
  | [] => p.isEmpty
  | _ :: t => isPre p s || isSubList p t

/-- Go `strings.Contains s sub`. -/
def goContains (s sub : String) : Bool :=
  isSubList sub.data s.data

/-- Go `strings.HasPrefix s pre` (`s` starts with `pre`). -/
def goStartsWith (s pre : String) : Bool :=
  isPre pre.data s.data

/-- Go `strings.HasSuffix s suf` (`s` ends with `suf`). -/
def goEndsWith (s suf : String) : Bool :=
  isPre suf.data.reverse s.data.reverse

/-- Go `strings.ToLower` (ASCII range; the inputs the middleware compares
are ASCII, where Go's Unicode lowering and `Char.toLower` agree). -/
def goToLower (s : String) : String :=
  String.mk (s.data.map Char.toLower)

/-- Uppercase hexadecimal digit, as used by Go's `url` escaping
(`"0123456789ABCDEF"`). -/
def upperHexDigit (n : Nat) : Char :=
  if n < 10 then Char.ofNat (48 + n) else Char.ofNat (55 + n)

/-- Go `url.shouldEscape(c, encodeQueryComponent) = false` exactly for
alphanumerics and `-`, `_`, `.`, `~` (space is handled separately). -/
def isUnreservedByte (n : Nat) : Bool :=
  (65 ≤ n && n ≤ 90) || (97 ≤ n && n ≤ 122) || (48 ≤ n && n ≤ 57) ||
  (n = 45) || (n = 95) || (n = 46) || (n = 126)

/-- Escape one byte (given as its numeric value) the way Go
`url.QueryEscape` does. -/
def queryEscapeByte (n : Nat) : String :=
  if isUnreservedByte n then String.singleton (Char.ofNat n)
  else if n = 32 then "+"
  else "%" ++ String.singleton (upperHexDigit (n / 16)) ++
    String.singleton (upperHexDigit (n % 16))

/-- The UTF-8 bytes of one character (standard 1-4 byte encoding). -/
def utf8Bytes (c : Char) : List Nat :=
  let n := c.toNat
  if n < 128 then [n]
  else if n < 2048 then [192 + n / 64, 128 + n % 64]
  else if n < 65536 then
    [224 + n / 4096, 128 + (n / 64) % 64, 128 + n % 64]
  else
    [240 + n / 262144, 128 + (n / 4096) % 64, 128 + (n / 64) % 64,
     128 + n % 64]

/-- Go `url.QueryEscape`: escape every UTF-8 byte of the string. -/
def queryEscape (s : String) : String :=
  String.join (((s.data.map utf8Bytes).flatten).map queryEscapeByte)

/-- One header map: association list from header name to its values. -/
abbrev HeaderMap := List (String × List String)

/-- Go `Header.Get k`: first value stored under `k`, or `""`. -/
def hdrGet (m : HeaderMap) (k : String) : String :=
  match m.find? (fun p => p.1 = k) with
  | some p => p.2.headD ""
  | none => ""

/-- All values stored under `k` (Go `Header[k]`). -/
def hdrGetAll (m : HeaderMap) (k : String) : List String :=
  match m.find? (fun p => p.1 = k) with
  | some p => p.2
  | none => []

/-- Go `Header.Set k v`: replace all values of `k` by the single value
`v`. -/
def hdrSet (m : HeaderMap) (k v : String) : HeaderMap :=
  m.filter (fun p => p.1 ≠ k) ++ [(k, [v])]

/-- Go `Header.Add k v`: append `v` to the values of `k`. -/
def hdrAdd (m : HeaderMap) (k v : String) : HeaderMap :=
  if (m.find? (fun p => p.1 = k)).isSome then
    m.map (fun p => if p.1 = k then (p.1, p.2 ++ [v]) else p)
  else m ++ [(k, [v])]

/-- The parts of a Go `*http.Request` the middleware reads: method,
header map, the parsed query of `req.URL` (Go's `url.Values` as produced
by `ParseQuery`, flattened to key/value pairs), `req.URL.Path`,
`req.RequestURI`, `req.URL.Host` and the connection-level `req.Host`. -/
structure Request where
  method : String
  headers : HeaderMap
  query : List (String × String)
  path : String
  requestURI : String
  urlHost : String
  host : String
deriving Repr, DecidableEq

/-- Go `req.UserAgent()` reads the `User-Agent` header. -/
def Request.userAgent (req : Request) : String :=
  hdrGet req.headers "User-Agent"

/-- Go `req.URL.Query()[k]`: all values of query parameter `k`.
`ParseQuery` stores a key with at least one value whenever the key occurs
in the raw query (a bare `?k` yields the single value `""`), so the Go
condition `f && len(q) > 0` on `q, f := Query()[k]` is `queryGet ≠ []`. -/
def queryGet (q : List (String × String)) (k : String) : List String :=
  (q.filter (fun p => p.1 = k)).map (fun p => p.2)

/-- The configuration fields of the `handler` struct (the wrapped `sub`
handler is modelled separately for the constructor). -/
structure Config where
  botUserAgents : List String
  ignoredExtension : List String
  prerenderServiceURL : String
  prerenderToken : String
  prerenderUsername : String
  prerenderPassword : String
deriving Repr, DecidableEq

/-- Default bot substrings from `variables.go` (`crawlerUserAgents`). -/
def crawlerUserAgents : List String :=
  ["baiduspider", "bufferbot", "developers.google.com/+/web/snippet",
   "embedly", "facebookexternalhit", "linkedinbot", "outbrain",
   "pinterest", "quora link preview", "rogerbot", "showyoubot",
   "slackbot", "twitterbot"]

/-- Default ignored extensions from `variables.go` (`extensionsToIgnore`). -/
def extensionsToIgnore : List String :=
  [".ai", ".avi", ".css", ".dat", ".dmg", ".doc", ".doc", ".exe", ".flv",
   ".gif", ".ico", ".iso", ".jpeg", ".jpg", ".js", ".less", ".m4a",
   ".m4v", ".mov", ".mp3", ".mp4", ".mpeg", ".mpg", ".pdf", ".png",
   ".ppt", ".psd", ".rar", ".rss", ".swf", ".tif", ".torrent", ".txt",
   ".wav", ".wmv", ".xls", ".xml", ".zip"]

/-- Default service URL from `variables.go` (`prerenderServiceURL`). -/
def defaultPrerenderServiceURL : String := "http://service.prerender.io/"

/-- `handler.isBot`: the lower-cased User-Agent contains some configured
bot substring. -/
def isBot (h : Config) (ua : String) : Bool :=
  let ua := goToLower ua
  h.botUserAgents.any (fun name => goContains ua name)

/-- `handler.containsIgnoredExtension`: the lower-cased path contains some
configured ignored-extension substring. -/
def containsIgnoredExtension (h : Config) (path : String) : Bool :=
  let path := goToLower path
  h.ignoredExtension.any (fun name => goContains path name)

/-- `handler.shouldShowPrerenderedPage`: the intercept decision. -/
def shouldShowPrerenderedPage (h : Config) (req : Request) : Bool :=
  let userAgent := req.userAgent
  let bufferAgent := hdrGet req.headers "X-Bufferbot"
  if userAgent = "" then false
  else if req.method ≠ "GET" then false
  else
    let isRequestingPrerenderedPage :=
      !(queryGet req.query "_escaped_fragment_").isEmpty ||
      isBot h userAgent || bufferAgent != ""
    if containsIgnoredExtension h req.path then false
    else isRequestingPrerenderedPage

/-- The fields of Go's `url.URL` this middleware touches. -/
structure GoURL where
  scheme : String
  host : String
  path : String
  rawQuery : String
deriving Repr, DecidableEq

/-- Split a character list at the first `?`: the part before it, and the
part after it when one occurs. -/
def breakAtQuestionMark (s : List Char) : List Char × Option (List Char) :=
  match s with
  | [] => ([], none)
  | a :: t =>
    if a = '?' then ([], some t)
    else
      let r := breakAtQuestionMark t
      (a :: r.1, r.2)

/-- `url.ParseRequestURI` for origin-form request URIs: everything before
the first `?` is the path, the rest the raw query; scheme and host are
empty.  An empty or non-absolute-path URI is a parse error. -/
def parseRequestURI (s : String) : Except String GoURL :=
  if ¬ goStartsWith s "/" then .error ("invalid URI for request: " ++ s)
  else
    let r := breakAtQuestionMark s.data
    .ok { scheme := "", host := "", path := String.mk r.1,
          rawQuery := match r.2 with | none => "" | some q => String.mk q }

/-- `url.URL.String` for URLs with only scheme/host/path/rawQuery set. -/
def GoURL.render (u : GoURL) : String :=
  (if u.scheme ≠ "" then u.scheme ++ ":" else "") ++
  (if u.host ≠ "" then "//" ++ u.host else "") ++
  u.path ++
  (if u.rawQuery ≠ "" then "?" ++ u.rawQuery else "")

/-- The host-resolution chain of `handler.buildApiUrl`: `Host` header,
then `req.URL.Host`, then `req.Host`; empty when all three are empty. -/
def resolveHost (req : Request) : String :=
  let h := hdrGet req.headers "Host"
  let h := if h = "" then req.urlHost else h
  let h := if h = "" then req.host else h
  h

/-- The scheme choice of `handler.buildApiUrl`: `http` by default,
`https` when `Cf-Visitor` contains `"scheme":"https"` or, failing that,
when `X-Forwarded-Proto` starts with `https,`. -/
def resolveScheme (req : Request) : String :=
  if goContains (hdrGet req.headers "Cf-Visitor") "\"scheme\":\"https\"" then
    "https"
  else if goStartsWith (hdrGet req.headers "X-Forwarded-Proto") "https," then
    "https"
  else "http"

/-- `handler.buildApiUrl`: parse the raw request URI, resolve host and
scheme, serialize the reconstructed URL, and append its query-escaped form
to the service base URL (with exactly one `/` separator). -/
def buildApiUrl (h : Config) (req : Request) : Except String String :=
  match parseRequestURI req.requestURI with
  | .error e => .error e
  | .ok u0 =>
    if resolveHost req = "" then .error "undetectable host"
    else
      let u : GoURL :=
        { u0 with host := resolveHost req, scheme := resolveScheme req }
      let rawurl := h.prerenderServiceURL
      let rawurl := if ¬ goEndsWith rawurl "/" then rawurl ++ "/" else rawurl
      .ok (rawurl ++ queryEscape u.render)

/-- `http.ResponseWriter` state.  `header` is the live header map the
handler mutates; `sent` is the snapshot taken when the header block is
written out (at `WriteHeader`, or at the first `Write`): per the
`net/http` contract, later changes to `header` are not observed by the
client. -/
structure RW where
  header : HeaderMap
  status : Option Nat
  sent : Option HeaderMap
  body : String
deriving Repr, DecidableEq

/-- A fresh response writer. -/
def RW.empty : RW := { header := [], status := none, sent := none, body := "" }

/-- `rw.Header().Set k v`. -/
def RW.hSet (rw : RW) (k v : String) : RW :=
  { rw with header := hdrSet rw.header k v }

/-- `rw.Header().Add k v`. -/
def RW.hAdd (rw : RW) (k v : String) : RW :=
  { rw with header := hdrAdd rw.header k v }

/-- `rw.WriteHeader code`: first call fixes the status and snapshots the
header map; further calls are ignored ("superfluous WriteHeader"). -/
def RW.writeHeader (rw : RW) (code : Nat) : RW :=
  match rw.sent with
  | some _ => rw
  | none => { rw with status := some code, sent := some rw.header }

/-- `rw.Write s`: an implicit `WriteHeader 200` if none happened yet, then
append to the body. -/
def RW.write (rw : RW) (s : String) : RW :=
  let rw := rw.writeHeader 200
  { rw with body := rw.body ++ s }

/-- The headers the client receives: the snapshot if the header block was
written, otherwise the current map (flushed unchanged at handler return). -/
def sentHeaders (rw : RW) : HeaderMap :=
  rw.sent.getD rw.header

/-- Go `http.Error rw msg code`: plain-text content type headers, the
status, and the message plus a trailing newline as body. -/
def httpError (rw : RW) (msg : String) (code : Nat) : RW :=
  let rw := rw.hSet "Content-Type" "text/plain; charset=utf-8"
  let rw := rw.hSet "X-Content-Type-Options" "nosniff"
  let rw := rw.writeHeader code
  rw.write (msg ++ "\n")

/-- A rendering-service response: status code, header map, and the bytes
`ReadAll` would produce on success. -/
structure Response where
  statusCode : Nat
  header : HeaderMap
  body : String
deriving Repr, DecidableEq

/-- The header-copy loop of the redirect branch: `Set` per value. -/
def copyHeadersSet (rw : RW) (m : HeaderMap) : RW :=
  m.foldl (fun rw kv => kv.2.foldl (fun rw v => rw.hSet kv.1 v) rw) rw

/-- The header-copy loop of the normal branch: `Add` per value. -/
def copyHeadersAdd (rw : RW) (m : HeaderMap) : RW :=
  m.foldl (fun rw kv => kv.2.foldl (fun rw v => rw.hAdd kv.1 v) rw) rw

/-- `handler.getPrerenderedPage` from `httpClient.Do` onward.  `doErr` is
the error of `Do` (`none` on success; when the suppressed-redirect hook
fired, the wrapped error text ends in `"Redirect"`); `resp` is the
response `Do` returned alongside; `readErr` is the error of
`ioutil.ReadAll` on the body.  Returns the final writer state and the
messages passed to `h.logf`. -/
def relayResponse (resp : Response) (doErr readErr : Option String)
    (rw : RW) : RW × List String :=
  match doErr with
  | some e =>
    if ¬ goEndsWith e "Redirect" then
      (httpError rw "Internal server error" 500, ["prerender error: " ++ e])
    else
      let rw := copyHeadersSet rw resp.header
      let rw := rw.writeHeader 301
      (rw.write "", [])
  | none =>
    let rw := rw.writeHeader resp.statusCode
    let rw := copyHeadersAdd rw resp.header
    match readErr with
    | some e =>
      (httpError rw "Internal server error" 500, ["prerender error: " ++ e])
    | none => (rw.write resp.body, [])

/-- `handler.getPrerenderedPage`: log the URL, build the outbound URL (a
failure is answered with `http.Error` 500), then relay the upstream
outcome. -/
def getPrerenderedPage (h : Config) (req : Request) (resp : Response)
    (doErr readErr : Option String) (rw : RW) : RW × List String :=
  let intro := "prerender: " ++ req.requestURI
  match buildApiUrl h req with
  | .error e =>
    (httpError rw "Internal server error" 500, [intro, "prerender error: " ++ e])
  | .ok _ =>
    let out := relayResponse resp doErr readErr rw
    (out.1, intro :: out.2)

/-- An `http.Handler` value as seen by the constructor: `nil`
(`Option.none` below), the package default mux, or a user handler. -/
inductive AppHandler where
  | defaultServeMux
  | custom (id : Nat)
deriving Repr, DecidableEq

/-- The full `handler` struct built by the `Handler` constructor. -/
structure HandlerModel where
  sub : Option AppHandler
  cfg : Config
deriving Repr, DecidableEq

/-- The `Option` configuration functions of the package. -/
inductive HOption where
  | bots (userAgents : List String)
  | ignoredExtensions (exts : List String)
  | serviceURL (url : String)
  | serviceToken (token : String)
  | serviceAuth (username password : String)
deriving Repr, DecidableEq

/-- Apply one `Option` to the handler under construction; no option
touches the wrapped `sub` handler. -/
def applyOption (o : HOption) (h : HandlerModel) : HandlerModel :=
  match o with
  | .bots l => { h with cfg := { h.cfg with botUserAgents := l } }
  | .ignoredExtensions l => { h with cfg := { h.cfg with ignoredExtension := l } }
  | .serviceURL u => { h with cfg := { h.cfg with prerenderServiceURL := u } }
  | .serviceToken t => { h with cfg := { h.cfg with prerenderToken := t } }
  | .serviceAuth u p =>
    { h with cfg := { h.cfg with prerenderUsername := u, prerenderPassword := p } }

/-- The environment variables the constructor consults (empty string means
unset, as Go's `os.Getenv` reports). -/
structure Env where
  serviceURL : String
  token : String
  username : String
  password : String
deriving Repr, DecidableEq

/-- The `Handler` constructor: substitute the default mux for a nil app,
apply built-in defaults, then environment overrides, then the caller's
options. -/
def Handler (app : Option AppHandler) (env : Env) (options : List HOption) :
    HandlerModel :=
  let app := match app with
    | none => some AppHandler.defaultServeMux
    | some a => some a
  let h : HandlerModel :=
    { sub := app,
      cfg := { botUserAgents := [], ignoredExtension := [],
               prerenderServiceURL := "", prerenderToken := "",
               prerenderUsername := "", prerenderPassword := "" } }
  let h := applyOption (.bots crawlerUserAgents) h
  let h := applyOption (.ignoredExtensions extensionsToIgnore) h
  let h := applyOption (.serviceURL defaultPrerenderServiceURL) h
  let h := if env.serviceURL ≠ "" then applyOption (.serviceURL env.serviceURL) h else h
  let h := if env.token ≠ "" then applyOption (.serviceToken env.token) h else h
  let h := if env.username ≠ "" ∨ env.password ≠ "" then
      applyOption (.serviceAuth env.username env.password) h
    else h
  options.foldl (fun h o => applyOption o h) h

/-! ## Concrete material shared by witnesses -/

/-- The configuration the constructor produces with no environment
variables and no caller options: the package defaults. -/
def cfgDefault : Config :=
  { botUserAgents := crawlerUserAgents,
    ignoredExtension := extensionsToIgnore,
    prerenderServiceURL := defaultPrerenderServiceURL,
    prerenderToken := "", prerenderUsername := "", prerenderPassword := "" }

/-! ## Helper lemmas -/

theorem applyOption_sub (o : HOption) (h : HandlerModel) :
    (applyOption o h).sub = h.sub := by
  cases o <;> rfl

theorem foldl_applyOption_sub (options : List HOption) (h : HandlerModel) :
    (options.foldl (fun h o => applyOption o h) h).sub = h.sub := by
  induction options generalizing h with
  | nil => rfl
  | cons o tl ih => rw [List.foldl_cons, ih, applyOption_sub]

theorem ite_applyOption_sub (c : Prop) [Decidable c] (o : HOption)
    (h : HandlerModel) : (if c then applyOption o h else h).sub = h.sub := by
  split
  · exact applyOption_sub o h
  · rfl

theorem Handler_sub (app : Option AppHandler) (env : Env)
    (options : List HOption) :
    (Handler app env options).sub =
      some (app.getD AppHandler.defaultServeMux) := by
  unfold Handler
  rw [foldl_applyOption_sub, ite_applyOption_sub, ite_applyOption_sub,
    ite_applyOption_sub, applyOption_sub, applyOption_sub, applyOption_sub]
  cases app <;> rfl

/-! ## Claims about the classifier -/

/-- C1.  A request whose lower-cased path contains a configured
ignored-extension substring is never intercepted, whatever the
User-Agent, the `_escaped_fragment_` parameter or the `X-Bufferbot`
header say. -/
theorem claim1_ignored_extension_passthrough (h : Config) (req : Request)
    (hext : containsIgnoredExtension h req.path = true) :
    shouldShowPrerenderedPage h req = false := by
  unfold shouldShowPrerenderedPage
  simp only [hext, if_true]
  split
  · rfl
  · split <;> rfl

/-- C1 witness: a bot requesting `/app.js` with `_escaped_fragment_` and a
non-empty `X-Bufferbot` header is still passed through. -/
theorem claim1_witness :
    containsIgnoredExtension cfgDefault "/app.js" = true ∧
    shouldShowPrerenderedPage cfgDefault
      { method := "GET",
        headers := [("User-Agent", ["Twitterbot/1.0"]), ("X-Bufferbot", ["1"])],
        query := [("_escaped_fragment_", "")], path := "/app.js",
        requestURI := "/app.js?_escaped_fragment_=", urlHost := "",
        host := "example.com" } = false :=
  ⟨by decide,
   claim1_ignored_extension_passthrough cfgDefault _ (by decide)⟩

/-- C9.  A request with an empty User-Agent, and likewise a non-GET
request, is never intercepted, whatever the other headers, the query and
the configuration. -/
theorem claim9_empty_ua_or_non_get_passthrough (h : Config) (req : Request)
    (hcase : req.userAgent = "" ∨ req.method ≠ "GET") :
    shouldShowPrerenderedPage h req = false := by
  unfold shouldShowPrerenderedPage
  rcases hcase with hua | hm
  · simp [hua]
  · rcases eq_or_ne req.userAgent "" with hua | hua
    · simp [hua]
    · simp [hua, hm]

/-- C9 witness: a POST from a bot with `_escaped_fragment_`, and a GET
with no User-Agent header, are both passed through. -/
theorem claim9_witness :
    shouldShowPrerenderedPage cfgDefault
      { method := "POST",
        headers := [("User-Agent", ["Twitterbot/1.0"]), ("X-Bufferbot", ["1"])],
        query := [("_escaped_fragment_", "")], path := "/page",
        requestURI := "/page", urlHost := "", host := "example.com" } = false ∧
    shouldShowPrerenderedPage cfgDefault
      { method := "GET", headers := [("X-Bufferbot", ["1"])],
        query := [("_escaped_fragment_", "")], path := "/page",
        requestURI := "/page", urlHost := "", host := "example.com" } = false :=
  ⟨claim9_empty_ua_or_non_get_passthrough cfgDefault _ (Or.inr (by decide)),
   claim9_empty_ua_or_non_get_passthrough cfgDefault _ (Or.inl (by decide))⟩

/-- C8 counterexample.  As stated the claim quantifies over every request
with `_escaped_fragment_` present and no ignored extension, but the
classifier checks the User-Agent and the method first: this POST request
carries `_escaped_fragment_=`, its path `/page` contains no ignored
extension, and it is not intercepted. -/
theorem claim8_counterexample :
    queryGet [("_escaped_fragment_", "")] "_escaped_fragment_" ≠ [] ∧
    containsIgnoredExtension cfgDefault "/page" = false ∧
    shouldShowPrerenderedPage cfgDefault
      { method := "POST", headers := [("User-Agent", ["Mozilla/5.0"])],
        query := [("_escaped_fragment_", "")], path := "/page",
        requestURI := "/page?_escaped_fragment_=", urlHost := "",
        host := "example.com" } = false := by
  refine ⟨by decide, by decide, by decide⟩

/-- C8 amended.  Every GET request with a non-empty User-Agent, the query
parameter `_escaped_fragment_` present (with any value, including the
empty string) and no configured ignored-extension substring in its path
is intercepted. -/
theorem claim8_escaped_fragment_intercepts (h : Config) (req : Request)
    (hua : req.userAgent ≠ "") (hm : req.method = "GET")
    (hq : queryGet req.query "_escaped_fragment_" ≠ [])
    (hext : containsIgnoredExtension h req.path = false) :
    shouldShowPrerenderedPage h req = true := by
  unfold shouldShowPrerenderedPage
  simp [hua, hm, hext, hq, List.isEmpty_iff]

/-- C8 witness: a plain-browser GET with `_escaped_fragment_` on `/page`
is intercepted. -/
theorem claim8_witness :
    shouldShowPrerenderedPage cfgDefault
      { method := "GET", headers := [("User-Agent", ["Mozilla/5.0"])],
        query := [("_escaped_fragment_", "")], path := "/page",
        requestURI := "/page?_escaped_fragment_=", urlHost := "",
        host := "example.com" } = true :=
  claim8_escaped_fragment_intercepts cfgDefault _ (by decide) (by decide)
    (by decide) (by decide)

/-- C10.  The constructor substitutes the default serve mux when handed a
nil application handler, and whatever handler and options it is given,
the wrapped pass-through handler is never nil. -/
theorem claim10_nil_app_defaults_to_mux (env : Env) (options : List HOption) :
    (Handler none env options).sub = some AppHandler.defaultServeMux ∧
    ∀ app : Option AppHandler, (Handler app env options).sub ≠ none := by
  refine ⟨Handler_sub none env options, fun app => ?_⟩
  rw [Handler_sub]
  exact Option.some_ne_none _

/-- C10 witness: with no environment overrides and no options, a nil app
handler is replaced by the default serve mux. -/
theorem claim10_witness :
    (Handler none
      { serviceURL := "", token := "", username := "", password := "" }
      []).sub = some AppHandler.defaultServeMux :=
  (claim10_nil_app_defaults_to_mux
    { serviceURL := "", token := "", username := "", password := "" } []).1

/-! ## Claims about the URL builder -/

/-- C5.  Host resolution tries the `Host` header, then the request URL's
host field, then the connection-level host, first non-empty wins; when all
three are empty `buildApiUrl` fails with `undetectable host`, and the
relay then answers the client with status 500. -/
theorem claim5_host_resolution (h : Config) (req : Request) (u0 : GoURL)
    (hp : parseRequestURI req.requestURI = .ok u0) :
    (hdrGet req.headers "Host" ≠ "" →
      resolveHost req = hdrGet req.headers "Host") ∧
    (hdrGet req.headers "Host" = "" → req.urlHost ≠ "" →
      resolveHost req = req.urlHost) ∧
    (hdrGet req.headers "Host" = "" → req.urlHost = "" →
      resolveHost req = req.host) ∧
    (resolveHost req = "" →
      buildApiUrl h req = .error "undetectable host" ∧
      ∀ resp doErr readErr,
        (getPrerenderedPage h req resp doErr readErr RW.empty).1.status =
          some 500) := by
  refine ⟨?_, ?_, ?_, ?_⟩
  · intro hh; simp [resolveHost, hh]
  · intro hh hu; simp [resolveHost, hh, hu]
  · intro hh hu; simp [resolveHost, hh, hu]
  · intro h0
    refine ⟨by simp [buildApiUrl, hp, h0], fun resp doErr readErr => ?_⟩
    simp [getPrerenderedPage, buildApiUrl, hp, h0, httpError, RW.write,
      RW.writeHeader, RW.hSet, RW.empty]

/-- C5 witness: with the `Host` header, the URL host and the connection
host all empty, the build fails with `undetectable host`. -/
theorem claim5_witness :
    buildApiUrl cfgDefault
      { method := "GET", headers := [("User-Agent", ["Twitterbot/1.0"])],
        query := [], path := "/a", requestURI := "/a", urlHost := "",
        host := "" } = .error "undetectable host" :=
  (claim5_host_resolution cfgDefault _
    { scheme := "", host := "", path := "/a", rawQuery := "" }
    (by decide) |>.2.2.2 (by decide)).1

/-- C6.  The reconstructed scheme is `https` exactly when `Cf-Visitor`
contains the literal `"scheme":"https"` or `X-Forwarded-Proto` starts
with `https,`; otherwise it is `http`. -/
theorem claim6_scheme_choice (req : Request) :
    (resolveScheme req = "https" ↔
      goContains (hdrGet req.headers "Cf-Visitor") "\"scheme\":\"https\""
          = true ∨
      goStartsWith (hdrGet req.headers "X-Forwarded-Proto") "https,"
          = true) ∧
    (goContains (hdrGet req.headers "Cf-Visitor") "\"scheme\":\"https\""
        = false →
     goStartsWith (hdrGet req.headers "X-Forwarded-Proto") "https,"
        = false →
     resolveScheme req = "http") := by
  cases hc : goContains (hdrGet req.headers "Cf-Visitor")
      "\"scheme\":\"https\"" <;>
    cases hx : goStartsWith (hdrGet req.headers "X-Forwarded-Proto")
      "https," <;>
    simp [resolveScheme, hc, hx]

/-- C6 witness: a `Cf-Visitor` declaration forces `https`; with neither
header set the scheme is `http`. -/
theorem claim6_witness :
    resolveScheme
      { method := "GET",
        headers := [("Cf-Visitor", ["\"scheme\":\"https\""])], query := [],
        path := "/a", requestURI := "/a", urlHost := "",
        host := "example.com" } = "https" ∧
    resolveScheme
      { method := "GET", headers := [], query := [], path := "/a",
        requestURI := "/a", urlHost := "", host := "example.com" } =
      "http" :=
  ⟨(claim6_scheme_choice _).1.mpr (Or.inl (by decide)),
   (claim6_scheme_choice _).2 (by decide) (by decide)⟩

/-- C7.  The outbound URL is the configured base URL, one `/` separator
added exactly when the base lacks a trailing slash, then the
query-escaped serialization of the reconstructed absolute URL. -/
theorem claim7_outbound_url (h : Config) (req : Request) (u0 : GoURL)
    (hp : parseRequestURI req.requestURI = .ok u0)
    (hh : resolveHost req ≠ "") :
    buildApiUrl h req = .ok
      ((if goEndsWith h.prerenderServiceURL "/" then h.prerenderServiceURL
        else h.prerenderServiceURL ++ "/") ++
       queryEscape (GoURL.render
         { scheme := resolveScheme req, host := resolveHost req,
           path := u0.path, rawQuery := u0.rawQuery })) := by
  cases u0
  by_cases hs : goEndsWith h.prerenderServiceURL "/" = true
  · simp [buildApiUrl, hp, hh, hs]
  · simp [buildApiUrl, hp, hh, hs]

/-- C7 witness: the successful-prerender scenario of the spec, producing
`http://service.prerender.io/http%3A%2F%2Fhost%2Farticle`. -/
theorem claim7_witness :
    buildApiUrl cfgDefault
      { method := "GET", headers := [("Host", ["host"])], query := [],
        path := "/article", requestURI := "/article", urlHost := "",
        host := "" } =
      .ok "http://service.prerender.io/http%3A%2F%2Fhost%2Farticle" := by
  rw [claim7_outbound_url cfgDefault _
    { scheme := "", host := "", path := "/article", rawQuery := "" }
    (by decide) (by decide)]
  decide

/-! ## Header-map lemmas for the relay claims -/

/-- The header map after the redirect branch's copy loop, at list level:
fold `hdrSet` over every value of every entry. -/
def hdrSetList (m0 m : HeaderMap) : HeaderMap :=
  m.foldl (fun acc kv => kv.2.foldl (fun acc v => hdrSet acc kv.1 v) acc) m0

theorem find?_key_filter_ne (m : HeaderMap) (k targ : String)
    (hk : k ≠ targ) :
    (m.filter (fun p => p.1 ≠ k)).find? (fun p => p.1 = targ) =
      m.find? (fun p => p.1 = targ) := by
  induction m with
  | nil => rfl
  | cons a tl ih =>
    by_cases ha : a.1 = k
    · have hat : ¬ a.1 = targ := by rw [ha]; exact hk
      rw [List.filter_cons_of_neg (by simp [ha]), ih,
        List.find?_cons_of_neg _ (by simp [hat])]
    · rw [List.filter_cons_of_pos (by simp [ha])]
      by_cases hat : a.1 = targ
      · rw [List.find?_cons_of_pos _ (by simp [hat]),
          List.find?_cons_of_pos _ (by simp [hat])]
      · rw [List.find?_cons_of_neg _ (by simp [hat]),
          List.find?_cons_of_neg _ (by simp [hat]), ih]

theorem hdrGetAll_hdrSet_self (m : HeaderMap) (k v : String) :
    hdrGetAll (hdrSet m k v) k = [v] := by
  unfold hdrGetAll hdrSet
  rw [List.find?_append]
  have h1 : (m.filter (fun p => p.1 ≠ k)).find?
      (fun p => decide (p.1 = k)) = none := by
    rw [List.find?_eq_none]
    intro x hx
    simp only [List.mem_filter, decide_eq_true_eq] at hx
    simp only [decide_eq_true_eq]
    exact hx.2
  rw [h1]
  simp [List.find?_cons]

theorem hdrGetAll_hdrSet_ne (m : HeaderMap) (k k' v : String)
    (hk : k' ≠ k) :
    hdrGetAll (hdrSet m k' v) k = hdrGetAll m k := by
  unfold hdrGetAll hdrSet
  rw [List.find?_append, find?_key_filter_ne m k' k hk]
  have h2 : (([(k', [v])]) : HeaderMap).find?
      (fun p => decide (p.1 = k)) = none := by
    simp [List.find?_cons, hk]
  rw [h2, Option.or_none]

theorem getAll_setVals_self (vs : List String) (m0 : HeaderMap)
    (k v : String) (hv : vs.getLast? = some v) :
    hdrGetAll (vs.foldl (fun acc w => hdrSet acc k w) m0) k = [v] := by
  induction vs generalizing m0 with
  | nil => simp at hv
  | cons w tl ih =>
    cases tl with
    | nil =>
      simp only [List.getLast?_singleton, Option.some.injEq] at hv
      subst hv
      simpa using hdrGetAll_hdrSet_self m0 k w
    | cons w2 t2 =>
      rw [List.foldl_cons]
      exact ih _ (by simpa [List.getLast?_cons_cons] using hv)

theorem getAll_setVals_ne (vs : List String) (m0 : HeaderMap)
    (k k' : String) (hk : k' ≠ k) :
    hdrGetAll (vs.foldl (fun acc w => hdrSet acc k' w) m0) k =
      hdrGetAll m0 k := by
  induction vs generalizing m0 with
  | nil => rfl
  | cons w tl ih =>
    rw [List.foldl_cons, ih]
    exact hdrGetAll_hdrSet_ne m0 k k' w hk

theorem hdrSetList_cons (m0 : HeaderMap) (kv : String × List String)
    (tl : HeaderMap) :
    hdrSetList m0 (kv :: tl) =
      hdrSetList (kv.2.foldl (fun acc v => hdrSet acc kv.1 v) m0) tl := rfl

theorem getAll_hdrSetList_notmem (m : HeaderMap) (k : String) :
    ∀ m0 : HeaderMap, k ∉ m.map Prod.fst →
      hdrGetAll (hdrSetList m0 m) k = hdrGetAll m0 k := by
  induction m with
  | nil => intro m0 _; rfl
  | cons kv tl ih =>
    intro m0 hk
    simp only [List.map_cons, List.mem_cons, not_or] at hk
    rw [hdrSetList_cons, ih _ hk.2]
    exact getAll_setVals_ne kv.2 m0 k kv.1 (fun h => hk.1 h.symm)

theorem getAll_hdrSetList_mem (m : HeaderMap) (k : String)
    (vs : List String) (v : String) (hnd : (m.map Prod.fst).Nodup)
    (hmem : (k, vs) ∈ m) (hv : vs.getLast? = some v) :
    ∀ m0 : HeaderMap, hdrGetAll (hdrSetList m0 m) k = [v] := by
  induction m with
  | nil => cases hmem
  | cons kv tl ih =>
    intro m0
    simp only [List.map_cons, List.nodup_cons] at hnd
    rw [hdrSetList_cons]
    rcases List.mem_cons.mp hmem with hhead | htail
    · have hk1 : kv.1 = k := by rw [← hhead]
      have hk2 : kv.2 = vs := by rw [← hhead]
      rw [getAll_hdrSetList_notmem tl k _ (by rw [← hk1]; exact hnd.1)]
      rw [hk1, hk2]
      exact getAll_setVals_self vs m0 k v hv
    · exact ih hnd.2 htail _

theorem hSetFold_eq (vs : List String) (k : String) (rw : RW) :
    vs.foldl (fun rw v => rw.hSet k v) rw =
      { rw with header := vs.foldl (fun acc v => hdrSet acc k v) rw.header }
      := by
  induction vs generalizing rw with
  | nil => rfl
  | cons v tl ih => rw [List.foldl_cons, List.foldl_cons, ih]; rfl

theorem copyHeadersSet_cons (rw : RW) (kv : String × List String)
    (tl : HeaderMap) :
    copyHeadersSet rw (kv :: tl) =
      copyHeadersSet (kv.2.foldl (fun rw v => rw.hSet kv.1 v) rw) tl := rfl

theorem copyHeadersSet_eq (m : HeaderMap) (rw : RW) :
    copyHeadersSet rw m = { rw with header := hdrSetList rw.header m } := by
  induction m generalizing rw with
  | nil => rfl
  | cons kv tl ih =>
    rw [copyHeadersSet_cons, hSetFold_eq, ih, hdrSetList_cons]

/-! ## Claims about the relay -/

/-- A redirect response from the rendering service with a multi-valued
header, as `client.Do` hands it back together with the suppressed-redirect
error. -/
def respRedirect : Response :=
  { statusCode := 302,
    header := [("Location", ["https://example.com/foo"]),
               ("Set-Cookie", ["a=1", "b=2"])],
    body := "" }

/-- C2 counterexample.  On a suppressed redirect the relay does emit 301
with an empty body, but the header copy uses set (last value wins)
semantics: of the two `Set-Cookie` values of the redirect response only
`b=2` reaches the client, so not all response headers are copied. -/
theorem claim2_counterexample :
    (relayResponse respRedirect (some "Get \"u\": Redirect") none
        RW.empty).1.status = some 301 ∧
    (relayResponse respRedirect (some "Get \"u\": Redirect") none
        RW.empty).1.body = "" ∧
    hdrGetAll respRedirect.header "Set-Cookie" = ["a=1", "b=2"] ∧
    hdrGetAll (sentHeaders (relayResponse respRedirect
        (some "Get \"u\": Redirect") none RW.empty).1) "Set-Cookie" =
      ["b=2"] ∧
    (["b=2"] : List String) ≠ ["a=1", "b=2"] := by
  refine ⟨by decide, by decide, by decide, by decide, by decide⟩

/-- C2 amended.  When `client.Do` fails with the redirect-suppression
sentinel, the relay writes status 301 and an empty body whatever the
original redirect status code was, and copies the redirect response's
headers onto the client response with set semantics: each header name
present upstream reaches the client carrying the last of its values
(earlier values of a multi-valued header are dropped). -/
theorem claim2_redirect_collapse (resp : Response) (e : String)
    (readErr : Option String) (he : goEndsWith e "Redirect" = true)
    (hnd : (resp.header.map Prod.fst).Nodup) :
    (relayResponse resp (some e) readErr RW.empty).1.status = some 301 ∧
    (relayResponse resp (some e) readErr RW.empty).1.body = "" ∧
    ∀ k vs v, (k, vs) ∈ resp.header → vs.getLast? = some v →
      hdrGetAll
        (sentHeaders (relayResponse resp (some e) readErr RW.empty).1) k =
        [v] := by
  have hout : (relayResponse resp (some e) readErr RW.empty).1 =
      { header := hdrSetList [] resp.header, status := some 301,
        sent := some (hdrSetList [] resp.header), body := "" } := by
    simp only [relayResponse, he, Bool.true_eq_false, not_false_eq_true,
      not_true_eq_false, if_false, ite_false, ite_true, reduceIte]
    rw [copyHeadersSet_eq]
    rfl
  refine ⟨by rw [hout], by rw [hout], fun k vs v hmem hv => ?_⟩
  rw [hout]
  show hdrGetAll (hdrSetList [] resp.header) k = [v]
  exact getAll_hdrSetList_mem resp.header k vs v hnd hmem hv []

/-- C2 witness: a 307 redirect bearing a `Location` header is collapsed
to a 301 whose `Location` value is that header's (only, hence last)
value, with an empty body. -/
theorem claim2_witness :
    (relayResponse
        { statusCode := 307,
          header := [("Location", ["https://example.com/foo"])],
          body := "" } (some "Get \"u\": Redirect") none
        RW.empty).1.status = some 301 ∧
    (relayResponse
        { statusCode := 307,
          header := [("Location", ["https://example.com/foo"])],
          body := "" } (some "Get \"u\": Redirect") none
        RW.empty).1.body = "" ∧
    hdrGetAll (sentHeaders (relayResponse
        { statusCode := 307,
          header := [("Location", ["https://example.com/foo"])],
          body := "" } (some "Get \"u\": Redirect") none
        RW.empty).1) "Location" = ["https://example.com/foo"] := by
  have h := claim2_redirect_collapse
    { statusCode := 307,
      header := [("Location", ["https://example.com/foo"])], body := "" }
    "Get \"u\": Redirect" none (by decide) (by decide)
  exact ⟨h.1, h.2.1,
    h.2.2 "Location" ["https://example.com/foo"] "https://example.com/foo"
      (by decide) (by decide)⟩

/-- C3 counterexample.  A transport failure that is not the redirect
sentinel is answered with status 500, but `http.Error` writes the
plain-text body `Internal server error` plus newline, not an empty
body. -/
theorem claim3_counterexample :
    (relayResponse { statusCode := 0, header := [], body := "" }
        (some "dial tcp 1.2.3.4:443: connect: connection refused") none
        RW.empty).1.status = some 500 ∧
    (relayResponse { statusCode := 0, header := [], body := "" }
        (some "dial tcp 1.2.3.4:443: connect: connection refused") none
        RW.empty).1.body = "Internal server error\n" ∧
    (relayResponse { statusCode := 0, header := [], body := "" }
        (some "dial tcp 1.2.3.4:443: connect: connection refused") none
        RW.empty).1.body ≠ "" := by
  refine ⟨by decide, by decide, by decide⟩

/-- C3 amended.  When `client.Do` fails for any reason other than the
redirect-suppression sentinel, the relay logs the error and answers the
caller with status 500 and the plain-text body `Internal server error`
plus newline that `http.Error` writes (not an empty body). -/
theorem claim3_transport_error_500 (resp : Response) (e : String)
    (readErr : Option String) (he : goEndsWith e "Redirect" = false) :
    (relayResponse resp (some e) readErr RW.empty).1.status = some 500 ∧
    (relayResponse resp (some e) readErr RW.empty).1.body =
      "Internal server error\n" ∧
    (relayResponse resp (some e) readErr RW.empty).2 =
      ["prerender error: " ++ e] := by
  simp only [relayResponse, he, Bool.false_eq_true, not_false_eq_true,
    if_true, ite_true, reduceIte]
  refine ⟨by decide, by decide, by simp⟩

/-- C3 witness: a connection-refused failure yields a logged error, a 500
status and the `http.Error` body. -/
theorem claim3_witness :
    (relayResponse { statusCode := 0, header := [], body := "" }
        (some "connection refused") none RW.empty).1.status = some 500 ∧
    (relayResponse { statusCode := 0, header := [], body := "" }
        (some "connection refused") none RW.empty).2 =
      ["prerender error: connection refused"] := by
  have h := claim3_transport_error_500
    { statusCode := 0, header := [], body := "" } "connection refused"
    none (by decide)
  exact ⟨h.1, h.2.2⟩

/-- A normal upstream response carrying a content-type header. -/
def respHTML : Response :=
  { statusCode := 200, header := [("Content-Type", ["text/html"])],
    body := "<html>prerendered</html>" }

/-- C4 (code bug evidence).  On a normal upstream response the code calls
`WriteHeader` with the upstream status before copying the upstream
headers into the response writer's header map; by the `net/http`
contract the header block sent to the client is the map as it stood at
`WriteHeader`, so the client receives the upstream status and body but
none of the upstream headers — the copy lands only in the live map. -/
theorem claim4_headers_lost :
    (relayResponse respHTML none none RW.empty).1.status = some 200 ∧
    (relayResponse respHTML none none RW.empty).1.body =
      "<html>prerendered</html>" ∧
    (relayResponse respHTML none none RW.empty).1.header =
      [("Content-Type", ["text/html"])] ∧
    respHTML.header ≠ [] ∧
    sentHeaders (relayResponse respHTML none none RW.empty).1 = [] := by
  refine ⟨by decide, by decide, by decide, by decide, by decide⟩

end Prerender
